import Mathlib

/-!
Verification development for the PINT solar-wind dispersion components and the
DDGR relativistic Kepler solver.

The Python source is embedded shallowly:

* floating-point arithmetic is idealised as real arithmetic (`ℝ`); float
  literals such as `1.0/3` are taken at their mathematical value;
* parameter values stored on components (`SWM`, `SWP`, MJD bounds, densities)
  are embedded as rationals (`ℚ`), which contain every double exactly and make
  the source's branch conditions decidable;
* scipy special functions (`hyp2f1`, `gamma`, `polygamma`) are external
  collaborators of this repository: they are passed as explicit function
  arguments (`hyp`, `sg`, `pg`) to the definitions that call them;
* `raise` is embedded as `Except.error` with an inductive error type mirroring
  the exception classes and messages;
* numpy arrays over TOAs become lists, one entry per TOA.
-/

/-! ## Physical constants (CODATA/IAU values used by `astropy.constants`) -/

/-- `astropy.constants.G` in SI units (m^3 kg^-1 s^-2). -/
noncomputable def G_SI : ℝ := 6.6743e-11

/-- `astropy.constants.c` in SI units (m/s). -/
noncomputable def c_SI : ℝ := 299792458

/-- `astropy.constants.M_sun` in kg. -/
noncomputable def Msun_SI : ℝ := 1.98840987e30

/-! ## `_solve_kepler` (DDGR_model.py)

The source, with masses in kg, the orbital angular frequency `n` in 1/s and
lengths in m:

    MTOT = M1 + M2
    arr0 = (c.G * MTOT / n**2) ** (1.0 / 3)
    arr = arr0
    arr_old = arr
    arr = arr0 * (1 + (M1 * M2 / MTOT**2 - 9) * (c.G * MTOT / (2 * arr * c.c**2))) ** (2.0 / 3)
    while np.fabs((arr - arr_old) / arr) > ARTOL:
        arr_old = arr
        ar = arr0 * (1 + (M1 * M2 / MTOT**2 - 9) * (c.G * MTOT / (2 * arr * c.c**2))) ** (2.0 / 3)
    return arr0.decompose(), arr.decompose()

Note that the loop body assigns the freshly computed iterate to the variable
`ar`, not to the loop-carried variable `arr`.  The embedding reproduces this
faithfully: the body keeps `arr` unchanged (the computation bound to `ar` is
dead code) and only copies `arr` into `arr_old`.  The while loop is embedded
as the iteration sequence of the body together with an exit predicate. -/

/-- The Newtonian initial value `arr0 = (G*(M1+M2)/n^2)^(1/3)`. -/
noncomputable def keplerArr0 (M1 M2 n : ℝ) : ℝ :=
  (G_SI * (M1 + M2) / n ^ 2) ^ ((1 : ℝ) / 3)

/-- One Picard update
`arr0*(1 + (M1*M2/MTOT^2 - 9)*(G*MTOT/(2*arr*c^2)))^(2/3)`, exactly the
right-hand side assigned (once before the loop to `arr`; inside the loop to the
dead variable `ar`). -/
noncomputable def keplerRHS (M1 M2 n arr : ℝ) : ℝ :=
  keplerArr0 M1 M2 n *
    (1 + (M1 * M2 / (M1 + M2) ^ 2 - 9) *
      (G_SI * (M1 + M2) / (2 * arr * c_SI ^ 2))) ^ ((2 : ℝ) / 3)

/-- The two local variables carried by the while loop of `_solve_kepler`. -/
structure KeplerState where
  arr : ℝ
  arr_old : ℝ

/-- The state just before the first test of the while condition:
`arr` holds the single pre-loop update `keplerRHS … arr0`, `arr_old` holds
`arr0` (the assignments `arr = arr0; arr_old = arr; arr = arr0 * (…)`). -/
noncomputable def keplerInit (M1 M2 n : ℝ) : KeplerState :=
  { arr := keplerRHS M1 M2 n (keplerArr0 M1 M2 n)
    arr_old := keplerArr0 M1 M2 n }

/-- The loop body `arr_old = arr; ar = arr0 * (…)`.  The value computed for
`ar` is dead (the source never reads `ar`), so the body only copies `arr`
into `arr_old`. -/
noncomputable def keplerBody (M1 M2 n : ℝ) (s : KeplerState) : KeplerState :=
  let ar := keplerRHS M1 M2 n s.arr
  { arr := s.arr, arr_old := s.arr }

/-- The state after `k` executions of the loop body. -/
noncomputable def keplerSeq (M1 M2 n : ℝ) (k : ℕ) : KeplerState :=
  (keplerBody M1 M2 n)^[k] (keplerInit M1 M2 n)

/-- The while condition `np.fabs((arr - arr_old) / arr) > ARTOL`. -/
noncomputable def keplerCond (ARTOL : ℝ) (s : KeplerState) : Prop :=
  ARTOL < |(s.arr - s.arr_old) / s.arr|

/-- The while loop runs its body exactly `k` times: the condition holds before
each of the first `k` iterations and fails afterwards. -/
noncomputable def keplerExitsAt (M1 M2 n ARTOL : ℝ) (k : ℕ) : Prop :=
  (∀ j < k, keplerCond ARTOL (keplerSeq M1 M2 n j)) ∧
    ¬ keplerCond ARTOL (keplerSeq M1 M2 n k)

/-- The pair `(arr0, arr)` returned by `_solve_kepler` when the while loop
exits after `k` iterations of its body (`.decompose()` only normalises
units and is the identity on SI values). -/
noncomputable def _solve_kepler (M1 M2 n : ℝ) (k : ℕ) : ℝ × ℝ :=
  (keplerArr0 M1 M2 n, (keplerSeq M1 M2 n k).arr)

lemma keplerBody_arr (M1 M2 n : ℝ) (s : KeplerState) :
    (keplerBody M1 M2 n s).arr = s.arr := rfl

lemma keplerSeq_arr (M1 M2 n : ℝ) (k : ℕ) :
    (keplerSeq M1 M2 n k).arr = (keplerInit M1 M2 n).arr := by
  induction k with
  | zero => rfl
  | succ k ih =>
      rw [keplerSeq, Function.iterate_succ_apply'] at *
      rw [keplerBody_arr]
      exact ih

/-- C1: the loop never feeds the new iterate back: whatever the step count and
the tolerance, the returned `arr` is the single pre-loop Picard update
`keplerRHS … arr0`, never an iterated fixed point. -/
theorem solve_kepler_never_iterates (M1 M2 n : ℝ) (k : ℕ) :
    (_solve_kepler M1 M2 n k).2 = keplerRHS M1 M2 n (keplerArr0 M1 M2 n) ∧
      (_solve_kepler M1 M2 n k).1 = keplerArr0 M1 M2 n :=
  ⟨keplerSeq_arr M1 M2 n k, rfl⟩

/-! ## `_solve_kepler` at the spec's test point: `M1 = 1.4 Msun`, `M2 = 0.3 Msun`,
`n = 2*pi/PB` with `PB = 0.1 d = 8640 s`. -/

/-- Pulsar mass `1.4 Msun` in kg. -/
noncomputable def M1c : ℝ := 1.4 * Msun_SI

/-- Companion mass `0.3 Msun` in kg. -/
noncomputable def M2c : ℝ := 0.3 * Msun_SI

/-- Orbital angular frequency for `PB = 0.1 d`, in 1/s. -/
noncomputable def nC : ℝ := 2 * Real.pi / 8640

/-- The relativistic factor argument `G*MTOT/(2*arr0*c^2)` at the test point. -/
noncomputable def Ppb : ℝ :=
  G_SI * (M1c + M2c) / (2 * keplerArr0 M1c M2c nC * c_SI ^ 2)

/-- The base `1 + (M1*M2/MTOT^2 - 9)*(G*MTOT/(2*arr0*c^2))` of the first
Picard update at the test point. -/
noncomputable def Bpb : ℝ := 1 + (M1c * M2c / (M1c + M2c) ^ 2 - 9) * Ppb

lemma keplerInit_arr_eq :
    (keplerInit M1c M2c nC).arr = keplerArr0 M1c M2c nC * Bpb ^ ((2 : ℝ) / 3) := rfl

lemma keplerInit_arr_old_eq :
    (keplerInit M1c M2c nC).arr_old = keplerArr0 M1c M2c nC := rfl

lemma rpow_third_gt {L X : ℝ} (hL : 0 ≤ L) (h : L ^ (3 : ℕ) < X) :
    L < X ^ ((1 : ℝ) / 3) := by
  have e : ((L ^ (3 : ℕ) : ℝ)) ^ ((1 : ℝ) / 3) = L := by
    rw [← Real.rpow_natCast L 3, ← Real.rpow_mul hL]
    norm_num
  calc L = ((L ^ (3 : ℕ) : ℝ)) ^ ((1 : ℝ) / 3) := e.symm
    _ < X ^ ((1 : ℝ) / 3) := Real.rpow_lt_rpow (by positivity) h (by norm_num)

lemma rpow_third_lt {X U : ℝ} (hX : 0 ≤ X) (hU : 0 ≤ U) (h : X < U ^ (3 : ℕ)) :
    X ^ ((1 : ℝ) / 3) < U := by
  have e : ((U ^ (3 : ℕ) : ℝ)) ^ ((1 : ℝ) / 3) = U := by
    rw [← Real.rpow_natCast U 3, ← Real.rpow_mul hU]
    norm_num
  calc X ^ ((1 : ℝ) / 3) < ((U ^ (3 : ℕ) : ℝ)) ^ ((1 : ℝ) / 3) :=
        Real.rpow_lt_rpow hX h (by norm_num)
    _ = U := e

lemma GM_pb01_bounds :
    (2.2e20 : ℝ) < G_SI * (M1c + M2c) ∧ G_SI * (M1c + M2c) < 2.3e20 := by
  rw [G_SI, M1c, M2c, Msun_SI]
  norm_num

lemma X_pb01_eq :
    G_SI * (M1c + M2c) / nC ^ 2 =
      G_SI * (M1c + M2c) * 8640 ^ 2 / (4 * Real.pi ^ 2) := by
  have hn : nC ^ 2 = 4 * Real.pi ^ 2 / 8640 ^ 2 := by rw [nC]; ring
  rw [hn, div_div_eq_mul_div]

lemma four_pi_sq_bounds : (39 : ℝ) < 4 * Real.pi ^ 2 ∧ 4 * Real.pi ^ 2 < 40 := by
  have h1 := Real.pi_gt_3141592
  have h2 := Real.pi_lt_3141593
  constructor <;> nlinarith

lemma arr0_pb01_bounds :
    (2e4 : ℝ) < keplerArr0 M1c M2c nC ∧ keplerArr0 M1c M2c nC < 8e8 := by
  obtain ⟨hGMl, hGMu⟩ := GM_pb01_bounds
  obtain ⟨hπl, hπu⟩ := four_pi_sq_bounds
  have hπ0 : (0 : ℝ) < 4 * Real.pi ^ 2 := by linarith
  have hXl : ((2e4 : ℝ)) ^ (3 : ℕ) < G_SI * (M1c + M2c) / nC ^ 2 := by
    rw [X_pb01_eq]
    calc ((2e4 : ℝ)) ^ (3 : ℕ) < 2.2e20 * 8640 ^ 2 / 40 := by norm_num
      _ < G_SI * (M1c + M2c) * 8640 ^ 2 / 40 := by
          rw [div_lt_div_right (by norm_num)]
          nlinarith
      _ < G_SI * (M1c + M2c) * 8640 ^ 2 / (4 * Real.pi ^ 2) := by
          apply div_lt_div_of_pos_left _ hπ0 hπu
          nlinarith
  have hXu : G_SI * (M1c + M2c) / nC ^ 2 < ((8e8 : ℝ)) ^ (3 : ℕ) := by
    rw [X_pb01_eq]
    calc G_SI * (M1c + M2c) * 8640 ^ 2 / (4 * Real.pi ^ 2)
        < G_SI * (M1c + M2c) * 8640 ^ 2 / 39 := by
          apply div_lt_div_of_pos_left _ (by norm_num) hπl
          nlinarith
      _ < 2.3e20 * 8640 ^ 2 / 39 := by
          rw [div_lt_div_right (by norm_num)]
          nlinarith
      _ < ((8e8 : ℝ)) ^ (3 : ℕ) := by norm_num
  have hX0 : (0 : ℝ) ≤ G_SI * (M1c + M2c) / nC ^ 2 := by
    have : ((0:ℝ)) ^ (3 : ℕ) < G_SI * (M1c + M2c) / nC ^ 2 := by
      calc ((0:ℝ)) ^ (3:ℕ) < ((2e4 : ℝ)) ^ (3 : ℕ) := by norm_num
        _ < _ := hXl
    nlinarith [this]
  exact ⟨rpow_third_gt (by norm_num) hXl, rpow_third_lt hX0 (by norm_num) hXu⟩

lemma Ppb_bounds : (1.5e-6 : ℝ) < Ppb ∧ Ppb < 0.07 := by
  obtain ⟨hGMl, hGMu⟩ := GM_pb01_bounds
  obtain ⟨ha0l, ha0u⟩ := arr0_pb01_bounds
  have hc2 : c_SI ^ 2 = 89875517873681764 := by rw [c_SI]; norm_num
  have hden : (0 : ℝ) < 2 * keplerArr0 M1c M2c nC * c_SI ^ 2 := by
    rw [hc2]; nlinarith
  constructor
  · rw [Ppb, lt_div_iff hden, hc2]
    nlinarith
  · rw [Ppb, div_lt_iff hden, hc2]
    nlinarith

lemma theta_pb01_eq : M1c * M2c / (M1c + M2c) ^ 2 = 42 / 289 := by
  rw [M1c, M2c, Msun_SI]
  norm_num

lemma Bpb_bounds : (0 : ℝ) < Bpb ∧ Bpb < 1 - 1e-5 := by
  obtain ⟨hPl, hPu⟩ := Ppb_bounds
  have hB : Bpb = 1 - (2559 / 289) * Ppb := by
    rw [Bpb, theta_pb01_eq]; ring
  rw [hB]
  constructor <;> nlinarith

lemma Bpb_rpow_lt : Bpb ^ ((2 : ℝ) / 3) < 1 - 1e-9 := by
  obtain ⟨hB0, hBu⟩ := Bpb_bounds
  have h32 : Bpb < ((1 : ℝ) - 1e-9) ^ ((3 : ℝ) / 2) := by
    have h1 : ((1 : ℝ) - 1e-9) ^ ((2 : ℕ) : ℝ) ≤ ((1 : ℝ) - 1e-9) ^ ((3 : ℝ) / 2) :=
      Real.rpow_le_rpow_of_exponent_ge (by norm_num) (by norm_num) (by push_cast; norm_num)
    rw [Real.rpow_natCast] at h1
    nlinarith
  calc Bpb ^ ((2 : ℝ) / 3)
      < (((1 : ℝ) - 1e-9) ^ ((3 : ℝ) / 2)) ^ ((2 : ℝ) / 3) :=
        Real.rpow_lt_rpow (le_of_lt hB0) h32 (by norm_num)
    _ = ((1 : ℝ) - 1e-9) ^ (((3 : ℝ) / 2) * ((2 : ℝ) / 3)) :=
        (Real.rpow_mul (by norm_num) _ _).symm
    _ = 1 - 1e-9 := by
        norm_num

lemma kepler_pb01_facts :
    0 < keplerArr0 M1c M2c nC ∧ 0 < (keplerInit M1c M2c nC).arr ∧
      (keplerInit M1c M2c nC).arr < keplerArr0 M1c M2c nC ∧
      keplerCond 1e-10 (keplerInit M1c M2c nC) := by
  obtain ⟨ha0l, ha0u⟩ := arr0_pb01_bounds
  have ha0 : 0 < keplerArr0 M1c M2c nC := by linarith
  have hBpow0 : 0 < Bpb ^ ((2 : ℝ) / 3) := Real.rpow_pos_of_pos Bpb_bounds.1 _
  have harr1 : 0 < (keplerInit M1c M2c nC).arr := by
    rw [keplerInit_arr_eq]; positivity
  have hlt' : (keplerInit M1c M2c nC).arr < keplerArr0 M1c M2c nC * (1 - 1e-9) := by
    rw [keplerInit_arr_eq]
    have := Bpb_rpow_lt
    nlinarith
  have hlt : (keplerInit M1c M2c nC).arr < keplerArr0 M1c M2c nC := by nlinarith
  refine ⟨ha0, harr1, hlt, ?_⟩
  rw [keplerCond]
  have hneg : ((keplerInit M1c M2c nC).arr - (keplerInit M1c M2c nC).arr_old) /
      (keplerInit M1c M2c nC).arr < 0 := by
    apply div_neg_of_neg_of_pos _ harr1
    rw [keplerInit_arr_old_eq]
    linarith
  rw [abs_of_neg hneg, keplerInit_arr_old_eq, ← neg_div, neg_sub, lt_div_iff harr1]
  nlinarith

lemma kepler_pb01_exits : keplerExitsAt M1c M2c nC 1e-10 1 := by
  obtain ⟨_, harr1, _, hcond⟩ := kepler_pb01_facts
  constructor
  · intro j hj
    have hj0 : j = 0 := Nat.lt_one_iff.mp hj
    subst hj0
    simpa [keplerSeq] using hcond
  · have h1 : keplerSeq M1c M2c nC 1 = keplerBody M1c M2c nC (keplerInit M1c M2c nC) := by
      rw [keplerSeq, Function.iterate_one]
    rw [h1, keplerCond, keplerBody]
    simp only [sub_self, zero_div, abs_zero, not_lt]
    norm_num

/-- C2 counterexample: at `M1 = 1.4 Msun`, `M2 = 0.3 Msun`, `PB = 0.1 d`,
`ARTOL = 1e-10`, the loop exits after one body execution and the returned
relativistic axis `arr` is NOT greater than the Newtonian `arr0` (the
correction factor is below one, so the claim `arr0 < arr` fails). -/
theorem solve_kepler_pb01_not_expanding :
    keplerExitsAt M1c M2c nC 1e-10 1 ∧
      ¬ ((_solve_kepler M1c M2c nC 1).1 < (_solve_kepler M1c M2c nC 1).2) := by
  refine ⟨kepler_pb01_exits, ?_⟩
  intro hlt
  obtain ⟨_, _, harrlt, _⟩ := kepler_pb01_facts
  have h2 : (_solve_kepler M1c M2c nC 1).2 = (keplerInit M1c M2c nC).arr := by
    rw [_solve_kepler]
    exact keplerSeq_arr M1c M2c nC 1
  have h1 : (_solve_kepler M1c M2c nC 1).1 = keplerArr0 M1c M2c nC := rfl
  rw [h1, h2] at hlt
  exact absurd hlt (not_lt.mpr (le_of_lt harrlt))

/-- C2 (amended): at `M1 = 1.4 Msun`, `M2 = 0.3 Msun`, `PB = 0.1 d`,
`ARTOL = 1e-10`, the while loop terminates after exactly one body execution
(a bounded number of steps) and the returned `arr` is strictly LESS than the
Newtonian estimate `arr0`. -/
theorem solve_kepler_pb01_terminates_and_contracts :
    keplerExitsAt M1c M2c nC 1e-10 1 ∧
      (_solve_kepler M1c M2c nC 1).2 < (_solve_kepler M1c M2c nC 1).1 := by
  refine ⟨kepler_pb01_exits, ?_⟩
  obtain ⟨_, _, harrlt, _⟩ := kepler_pb01_facts
  have h2 : (_solve_kepler M1c M2c nC 1).2 = (keplerInit M1c M2c nC).arr := by
    rw [_solve_kepler]
    exact keplerSeq_arr M1c M2c nC 1
  rw [h2]
  exact harrlt

/-! ## Solar-wind special functions and geometry (solar_wind_dispersion.py)

Length convention: the per-TOA inputs of `sun_angle` — the elongation `theta`
(rad) and the observer–Sun distance `r` — are embedded with `r` in AU, so that
`b.to_value(u.AU)` is the plain numeral `b` and the final `.to(u.pc)`
conversion multiplies by `au_in_pc`.  The scipy externals `hyp2f1`, `gamma`
and `polygamma(0, ·)` are passed in as the function arguments `hyp`, `sg`
and `pg`. -/

/-- One astronomical unit expressed in parsec (`const.au / u.pc`). -/
noncomputable def au_in_pc : ℝ := 149597870700 / 3.0856775814913673e16

/-- The large comparison distance `(1e14 * u.s * const.c).to(u.AU)`
("this is what Enterprise uses"), in AU. -/
noncomputable def z_p_AU : ℝ := 1e14 * 299792458 / 149597870700

/-- `np.arctan2 y x`. -/
noncomputable def arctan2 (y x : ℝ) : ℝ :=
  if 0 < x then Real.arctan (y / x)
  else if x < 0 then
    if 0 ≤ y then Real.arctan (y / x) + Real.pi else Real.arctan (y / x) - Real.pi
  else if 0 < y then Real.pi / 2 else if y < 0 then -(Real.pi / 2) else 0

/-- `_dm_p_int(b, z, p) = (z/b) * hyp2f1(0.5, p/2, 1.5, -(z^2/b^2))`. -/
noncomputable def _dm_p_int (hyp : ℝ → ℝ → ℝ → ℝ → ℝ) (b z p : ℝ) : ℝ :=
  (z / b) * hyp (1 / 2) (p / 2) (3 / 2) (-(z ^ 2 / b ^ 2))

/-- `_gamma_function(p) = gamma(p/2 - 0.5) / gamma(p/2)`. -/
noncomputable def _gamma_function (sg : ℝ → ℝ) (p : ℝ) : ℝ :=
  sg (p / 2 - 1 / 2) / sg (p / 2)

/-- `_d_gamma_function_dp(p)` via digamma (`polygamma(0, ·)` is `pg`). -/
noncomputable def _d_gamma_function_dp (sg pg : ℝ → ℝ) (p : ℝ) : ℝ :=
  sg (p / 2 - 1 / 2) * pg (p / 2 - 1 / 2) / 2 / sg (p / 2) -
    sg (p / 2 - 1 / 2) * pg (p / 2) / 2 / sg (p / 2)

/-- `_hypergeom_function(b, z, p) = cot(theta) * hyp2f1(0.5, p/2, 1.5, -cot(theta)^2)`
with `theta = arctan2(b, z)`. -/
noncomputable def _hypergeom_function (hyp : ℝ → ℝ → ℝ → ℝ → ℝ) (b z p : ℝ) : ℝ :=
  (1 / Real.tan (arctan2 b z)) *
    hyp (1 / 2) (p / 2) (3 / 2) (-(1 / Real.tan (arctan2 b z)) ^ 2)

/-- `_d_hypergeom_function_dp(b, z, p)`: the order-(4,4) Pade expansion of
`d/dp (cot(theta) * hyp2f1([1/2, p/2], [3/2], -cot(theta)^2))` near
`theta = pi/2`, in the deviation `x = theta - pi/2`. -/
noncomputable def _d_hypergeom_function_dp (b z p : ℝ) : ℝ :=
  let theta := arctan2 b z
  let x := theta - Real.pi / 2
  8580 * x ^ 3 *
      ((p ^ 4 - 76 / 11 * p ^ 3 + 2996 / 429 * p ^ 2 + 5248 / 429 * p - 1984 / 429)
          * x ^ 4 +
        84 / 11 * (p ^ 2 - 115 / 39 * p - 44 / 39) * (p + 4) * x ^ 2 +
        1960 / 143 * (p + 4) ^ 2) /
    (39 * x ^ 4 * p ^ 3 - 186 * x ^ 4 * p ^ 2 + 200 * x ^ 4 * p + 360 * x ^ 2 * p ^ 2 +
        32 * x ^ 4 - 480 * x ^ 2 * p - 1440 * x ^ 2 + 840 * p + 3360) ^ 2

/-- The exceptions raised by the solar-wind dispersion components. -/
inductive SWError where
  /-- `NotImplementedError("Solar Dispersion Delay not implemented for power-law index p <= 1")` -/
  | notImplementedP : SWError
  /-- `NotImplementedError("Solar Dispersion Delay not implemented for SWM %d")` -/
  | notImplementedSWM : SWError
  /-- `ValueError("Solar Wind power-law index not valid for SWM %d")` -/
  | valueErrorSWP : SWError
deriving DecidableEq

/-- A numpy float that is either finite or `np.inf`. -/
inductive SWVal where
  | fin (x : ℝ) : SWVal
  | inf : SWVal

/-- The common Hazboun et al. (2022) Eqn. 11 geometry value (in pc) for one
TOA: `(1/b)^p * b * (_dm_p_int(b, z_p, p) - _dm_p_int(b, -z_sun, p))`
followed by the AU→pc conversion of `.to(u.pc)`; `b` and `z_sun` in AU. -/
noncomputable def sw_geometry_core (hyp : ℝ → ℝ → ℝ → ℝ → ℝ) (p b z_sun : ℝ) : ℝ :=
  (1 / b) ^ p * b * (_dm_p_int hyp b z_p_AU p - _dm_p_int hyp b (-z_sun) p) * au_in_pc

/-- The matching Eqn. 12 derivative value (in pc) for one TOA, used on the
`p > 1` branch of the `d_solar_wind_geometry_d_sw*p` methods. -/
noncomputable def sw_geometry_deriv_core (hyp : ℝ → ℝ → ℝ → ℝ → ℝ) (sg pg : ℝ → ℝ)
    (p b z_sun : ℝ) : ℝ :=
  ((1 / b) ^ p *
      (b * _d_hypergeom_function_dp b z_sun p +
        b * Real.sqrt Real.pi / 2 * _d_gamma_function_dp sg pg p) -
    (1 / b) ^ p * Real.log b *
      (b * _hypergeom_function hyp b z_sun p +
        b * Real.sqrt Real.pi / 2 * _gamma_function sg p)) * au_in_pc

/-- `SolarWindDispersion.solar_wind_geometry(toas)`: per-TOA geometry for the
basic model.  `SWM` and `SWP` are the component's parameter values; `toas`
lists the `sun_angle` outputs `(theta, r)` per TOA, `r` in AU.  For `SWM==0`
this is the Edwards et al. closed form `au^2 * rho / (r * sin(rho))` with
`rho = pi - theta`, converted to pc; for `SWM==1` the Hazboun et al. form with
`b = r*sin(theta)`, `z_sun = r*cos(theta)`, raising for `p <= 1`; any other
`SWM` raises `NotImplementedError`. -/
noncomputable def swd_solar_wind_geometry (hyp : ℝ → ℝ → ℝ → ℝ → ℝ) (SWM SWP : ℚ)
    (toas : List (ℝ × ℝ)) : Except SWError (List ℝ) :=
  if SWM = 0 then
    .ok (toas.map fun tr =>
      au_in_pc * (Real.pi - tr.1) / (tr.2 * Real.sin (Real.pi - tr.1)))
  else if SWM = 1 then
    if 1 < SWP then
      .ok (toas.map fun tr =>
        sw_geometry_core hyp (SWP : ℝ) (tr.2 * Real.sin tr.1) (tr.2 * Real.cos tr.1))
    else .error .notImplementedP
  else .error .notImplementedSWM

/-- `SolarWindDispersion.d_solar_wind_geometry_d_swp(toas)`: raises
`ValueError` for `SWM==0`; for `SWM==1` returns the Eqn. 12 derivative when
`p > 1` and `np.inf * np.ones(len(toas))` when `p <= 1`; any other `SWM`
raises `NotImplementedError`. -/
noncomputable def swd_d_solar_wind_geometry_d_swp (hyp : ℝ → ℝ → ℝ → ℝ → ℝ)
    (sg pg : ℝ → ℝ) (SWM SWP : ℚ) (toas : List (ℝ × ℝ)) :
    Except SWError (List SWVal) :=
  if SWM = 0 then .error .valueErrorSWP
  else if SWM = 1 then
    if 1 < SWP then
      .ok (toas.map fun tr =>
        .fin (sw_geometry_deriv_core hyp sg pg (SWP : ℝ)
          (tr.2 * Real.sin tr.1) (tr.2 * Real.cos tr.1)))
    else .ok (List.replicate toas.length .inf)
  else .error .notImplementedSWM

/-- `SolarWindDispersionX.solar_wind_geometry(toas, p)`: the per-segment
geometry of the SWX model (always the Hazboun et al. form); raises for
`p <= 1`. -/
noncomputable def swx_solar_wind_geometry (hyp : ℝ → ℝ → ℝ → ℝ → ℝ) (p : ℚ)
    (toas : List (ℝ × ℝ)) : Except SWError (List ℝ) :=
  if 1 < p then
    .ok (toas.map fun tr =>
      sw_geometry_core hyp (p : ℝ) (tr.2 * Real.sin tr.1) (tr.2 * Real.cos tr.1))
  else .error .notImplementedP

/-- `SolarWindDispersionScaled.solar_wind_geometry(toas)` with power-law
index `SWPP`; raises for `p <= 1`. -/
noncomputable def sws_solar_wind_geometry (hyp : ℝ → ℝ → ℝ → ℝ → ℝ) (SWPP : ℚ)
    (toas : List (ℝ × ℝ)) : Except SWError (List ℝ) :=
  if 1 < SWPP then
    .ok (toas.map fun tr =>
      sw_geometry_core hyp (SWPP : ℝ) (tr.2 * Real.sin tr.1) (tr.2 * Real.cos tr.1))
  else .error .notImplementedP

/-- `SolarWindDispersionScaled.fiducial_solar_wind_geometry()`: the geometry
at the fiducial elongation `theta0` (the pulsar's ecliptic latitude, an
external coordinate transform) and `r0 = 1 AU`; raises for `p <= 1`. -/
noncomputable def sws_fiducial_solar_wind_geometry (hyp : ℝ → ℝ → ℝ → ℝ → ℝ)
    (SWPP : ℚ) (theta0 : ℝ) : Except SWError ℝ :=
  if 1 < SWPP then
    .ok (sw_geometry_core hyp (SWPP : ℝ) (1 * Real.sin theta0) (1 * Real.cos theta0))
  else .error .notImplementedP

/-- `SolarWindDispersionScaled.solar_wind_dm(toas)
  = SWDMMAX * (solar_wind_geometry(toas) / fiducial_solar_wind_geometry())`,
already in pc/cm^3 so the final `.to` is the identity. -/
noncomputable def sws_solar_wind_dm (hyp : ℝ → ℝ → ℝ → ℝ → ℝ)
    (SWDMMAX SWPP : ℚ) (theta0 : ℝ) (toas : List (ℝ × ℝ)) :
    Except SWError (List ℝ) := do
  let geo ← sws_solar_wind_geometry hyp SWPP toas
  let fid ← sws_fiducial_solar_wind_geometry hyp SWPP theta0
  return geo.map fun g => (SWDMMAX : ℝ) * (g / fid)

/-- `SolarWindDispersionScaled.get_ne_sw() = (SWDMMAX / fiducial_solar_wind_geometry())`,
in cm^-3 (the pc parts cancel exactly in the unit conversion). -/
noncomputable def sws_get_ne_sw (hyp : ℝ → ℝ → ℝ → ℝ → ℝ) (SWDMMAX SWPP : ℚ)
    (theta0 : ℝ) : Except SWError ℝ := do
  let fid ← sws_fiducial_solar_wind_geometry hyp SWPP theta0
  return (SWDMMAX : ℝ) / fid

/-! ## `SolarWindDispersionX`: the segmented (SWX) parameter set

A component state is its ordered list of parameters (Python's `self.params`
insertion order is preserved by `add_param`/`remove_param`).  Each parameter
is one of the four co-indexed families `SWX_####`, `SWXP_####`, `SWXR1_####`,
`SWXR2_####`.  `fval` carries the float value of an `SWX_`/`SWXP_` parameter,
`mjd` the (possibly unset, i.e. `None`) MJD value of an `SWXR1_`/`SWXR2_`
parameter; the unused field of each entry is a fixed default.  The name
strings `"SWX_" + i`, `"SWXP_" + i`, ... (with `i` the zero-padded decimal
index) are represented by the pair (family, index): since the index part is
all digits, the substring test `"SWX_" in p` of `get_indices` holds exactly
for the `SWX_` family. -/

/-- The four prefixed-parameter families of an SWX segment. -/
inductive SWXFam where
  | swx : SWXFam
  | swxp : SWXFam
  | swxr1 : SWXFam
  | swxr2 : SWXFam
deriving DecidableEq

/-- One prefixed parameter of a `SolarWindDispersionX` component. -/
structure SWXParam where
  fam : SWXFam
  idx : ℕ
  fval : ℚ
  mjd : Option ℚ
  frozen : Bool
deriving DecidableEq

/-- The ordered parameter list `self.params` of a component. -/
abbrev SWXState := List SWXParam

/-- The errors raised by the SWX structural operations. -/
inductive SWXErr where
  /-- `ValueError("SWX_ parameters do not match SWXP_ parameters. ...")` -/
  | mismatchSWXP : SWXErr
  /-- `ValueError("SWX_ parameters do not match SWXR1_ parameters. ...")` -/
  | mismatchSWXR1 : SWXErr
  /-- `ValueError("SWX_ parameters do not match SWXR2_ parameters. ...")` -/
  | mismatchSWXR2 : SWXErr
  /-- `ValueError("Starting MJD is greater than ending MJD.")` -/
  | invertedBounds : SWXErr
  /-- `ValueError("Only one MJD bound is set.")` -/
  | partialBounds : SWXErr
  /-- `ValueError("Index '%s' is already in use in this model. ...")` -/
  | reusedIndex : SWXErr
  /-- a Python `KeyError` on a missing mapping key -/
  | keyError : SWXErr
  /-- a Python `AttributeError` (e.g. `.mjd` on an unset quantity) -/
  | attributeError : SWXErr
  /-- `MissingTOAs(bad_parameters)`, carrying the offending SWX indices -/
  | missingTOAs (bad : List ℕ) : SWXErr
deriving DecidableEq

instance {ε α : Type _} [DecidableEq ε] [DecidableEq α] : DecidableEq (Except ε α) :=
  fun a b =>
    match a, b with
    | .error e, .error f =>
        if h : e = f then .isTrue (by rw [h])
        else .isFalse fun hh => h (Except.error.inj hh)
    | .error _, .ok _ => .isFalse fun hh => Except.noConfusion hh
    | .ok _, .error _ => .isFalse fun hh => Except.noConfusion hh
    | .ok x, .ok y =>
        if h : x = y then .isTrue (by rw [h])
        else .isFalse fun hh => h (Except.ok.inj hh)

/-- The index keys of one family, in parameter (insertion) order; this is
`list(self.get_prefix_mapping_component(prefix).keys())`. -/
def famKeys (f : SWXFam) (s : SWXState) : List ℕ :=
  s.filterMap fun e => if e.fam = f then some e.idx else none

/-- The key set of one family (Python `dict.keys()` compares as a set). -/
def famKeySet (f : SWXFam) (s : SWXState) : Finset ℕ := (famKeys f s).toFinset

/-- `np.max(list(dct.keys()))` over the `SWX_` mapping (0 on the empty list;
the source would raise there, but every constructed component has index 1). -/
def maxSWXIndex (s : SWXState) : ℕ := (famKeys .swx s).foldr max 0

/-- The two MJD-bound checks of `add_swx_range`, in source order: both bounds
set with `mjd_end < mjd_start` raises `ValueError`; exactly one bound set
raises `ValueError`; both unset (or both set, ordered) passes. -/
def boundsCheck (mjd_start mjd_end : Option ℚ) : Option SWXErr :=
  match mjd_start, mjd_end with
  | some a, some b => if b < a then some .invertedBounds else none
  | none, none => none
  | _, _ => some .partialBounds

/-- `SolarWindDispersionX.validate()`: the four key sets must be identical;
the first failing comparison raises a `ValueError` naming the mismatched
family. -/
def swx_validate (s : SWXState) : Except SWXErr Unit :=
  if famKeySet .swx s ≠ famKeySet .swxp s then .error .mismatchSWXP
  else if famKeySet .swx s ≠ famKeySet .swxr1 s then .error .mismatchSWXR1
  else if famKeySet .swx s ≠ famKeySet .swxr2 s then .error .mismatchSWXR2
  else .ok ()

/-- `SolarWindDispersionX.setup()` (its state-changing part): for every
`SWX_` parameter with no matching `SWXP_` parameter, a default `SWXP_`
parameter with value 2 is appended.  Derivative-function registration has no
observable effect on the parameter list. -/
def swx_setup (s : SWXState) : SWXState :=
  s ++ ((famKeys .swx s).filter fun i => i ∉ famKeys .swxp s).map
    fun i => ⟨.swxp, i, 2, none, true⟩

/-- The four parameters created by `add_swx_range` for index `i`:
`SWX_x` (value `swx`, frozen as given), `SWXP_x` (value `swxp`, frozen as
given), `SWXR1_x`/`SWXR2_x` (MJD bounds, default frozen). -/
def swxNewParams (i : ℕ) (mjd_start mjd_end : Option ℚ) (swx swxp : ℚ)
    (frozen : Bool) : List SWXParam :=
  [⟨.swx, i, swx, none, frozen⟩, ⟨.swxp, i, swxp, none, frozen⟩,
   ⟨.swxr1, i, 0, mjd_start, true⟩, ⟨.swxr2, i, 0, mjd_end, true⟩]

/-- `SolarWindDispersionX.add_swx_range(mjd_start, mjd_end, index, swx, swxp,
frozen)`: resolves the index (current max + 1 when `None`), checks the MJD
bounds, rejects a reused index, appends the four parameters, re-runs
`setup()` and `validate()`, and returns the new state with the assigned
index. -/
def add_swx_range (s : SWXState) (mjd_start mjd_end : Option ℚ) (index : Option ℕ)
    (swx swxp : ℚ) (frozen : Bool) : Except SWXErr (SWXState × ℕ) :=
  let idx := index.getD (maxSWXIndex s + 1)
  match boundsCheck mjd_start mjd_end with
  | some e => .error e
  | none =>
    if idx ∈ famKeySet .swx s then .error .reusedIndex
    else
      let s2 := swx_setup (s ++ swxNewParams idx mjd_start mjd_end swx swxp frozen)
      match swx_validate s2 with
      | .error e => .error e
      | .ok _ => .ok (s2, idx)

/-- `Component.remove_param(prefix + index)` for one named parameter: drops
the (family, index) entry from the ordered list. -/
def swx_remove_param (s : SWXState) (f : SWXFam) (i : ℕ) : SWXState :=
  s.filter fun e => ¬(e.fam = f ∧ e.idx = i)

/-- `SolarWindDispersionX.remove_swx_range(index)` for a single integer
index: removes the four parameters `SWX_`, `SWXP_`, `SWXR1_`, `SWXR2_` with
that index and re-validates. -/
def remove_swx_range (s : SWXState) (i : ℕ) : Except SWXErr SWXState :=
  let s1 := swx_remove_param s .swx i
  let s2 := swx_remove_param s1 .swxp i
  let s3 := swx_remove_param s2 .swxr1 i
  let s4 := swx_remove_param s3 .swxr2 i
  match swx_validate s4 with
  | .error e => .error e
  | .ok _ => .ok s4

/-- `SolarWindDispersionX.get_indices()`: the integer indices of the
parameters whose name contains `"SWX_"` (exactly the `SWX_` family, since the
index digits cannot extend the prefixes `SWXP_`, `SWXR1_`, `SWXR2_` to
contain the substring `"SWX_"`), in `self.params` order. -/
def get_indices (s : SWXState) : List ℕ := famKeys .swx s

/-- The component state built by `SolarWindDispersionX.__init__`, which calls
`add_swx_range(None, None, swx=0, swxp=2, frozen=False, index=1)` on an empty
component. -/
def swxInitState : SWXState :=
  [⟨.swx, 1, 0, none, false⟩, ⟨.swxp, 1, 2, none, false⟩,
   ⟨.swxr1, 1, 0, none, true⟩, ⟨.swxr2, 1, 0, none, true⟩]

/-- The states reachable from the freshly constructed component by successful
`add_swx_range`/`remove_swx_range` calls. -/
inductive SWXReachable : SWXState → Prop where
  | init : SWXReachable swxInitState
  | add {s s' : SWXState} {a b : Option ℚ} {oi : Option ℕ} {v q : ℚ} {fz : Bool} {j : ℕ}
      (hs : SWXReachable s) (h : add_swx_range s a b oi v q fz = .ok (s', j)) :
      SWXReachable s'
  | remove {s s' : SWXState} {i : ℕ}
      (hs : SWXReachable s) (h : remove_swx_range s i = .ok s') : SWXReachable s'

/-! ## `SolarWindDispersionX.validate_toas(toas)` -/

/-- First parameter of a given family and index (`getattr`/mapping lookup). -/
def findParam (s : SWXState) (f : SWXFam) (i : ℕ) : Option SWXParam :=
  s.find? fun e => decide (e.fam = f ∧ e.idx = i)

/-- The frozen flag read by `validate_toas` (`self._parent[SWX_mapping[k]].frozen`);
`true` as a junk value when the `SWX_` parameter is missing (that case raises
and is excluded by `swxToasReadyAt`). -/
def segFrozen (s : SWXState) (k : ℕ) : Bool :=
  match findParam s .swx k with
  | some p => p.frozen
  | none => true

/-- Whether segment `k` contains zero TOAs under the half-open membership
`b <= mjd < e` (`np.sum((b <= mjds) & (mjds < e)) == 0`); `false` as a junk
value when a bound is unset. -/
def segEmpty (s : SWXState) (mjds : List ℚ) (k : ℕ) : Bool :=
  match (findParam s .swxr1 k).bind (·.mjd), (findParam s .swxr2 k).bind (·.mjd) with
  | some b, some e => (mjds.countP fun m => decide (b ≤ m ∧ m < e)) = 0
  | _, _ => false

/-- The reads performed for segment `k` by `validate_toas` succeed: the
`SWX_` parameter exists, and (unless it is frozen, in which case the loop
`continue`s before reading the bounds) both MJD bounds are set. -/
def swxToasReadyAt (s : SWXState) (k : ℕ) : Bool :=
  match findParam s .swx k with
  | none => false
  | some p =>
      p.frozen ||
        (((findParam s .swxr1 k).bind (·.mjd)).isSome &&
          ((findParam s .swxr2 k).bind (·.mjd)).isSome)

/-- The loop of `validate_toas` over the `SWXR1_` keys, accumulating
`bad_parameters`. -/
def swx_validate_toas_go (s : SWXState) (mjds : List ℚ) :
    List ℕ → List ℕ → Except SWXErr (List ℕ)
  | [], bad => .ok bad
  | k :: ks, bad =>
    match findParam s .swx k with
    | none => .error .keyError
    | some pswx =>
      if pswx.frozen then swx_validate_toas_go s mjds ks bad
      else
        match (findParam s .swxr1 k).bind (·.mjd),
            (findParam s .swxr2 k).bind (·.mjd) with
        | some b, some e =>
          if (mjds.countP fun m => decide (b ≤ m ∧ m < e)) = 0 then
            swx_validate_toas_go s mjds ks (bad ++ [k])
          else swx_validate_toas_go s mjds ks bad
        | _, _ => .error .attributeError

/-- `SolarWindDispersionX.validate_toas(toas)`: for every non-frozen segment,
count the TOAs with `SWXR1 <= mjd < SWXR2`; collect every empty segment's
`SWX_` parameter and raise `MissingTOAs` with the full list if any. -/
def swx_validate_toas (s : SWXState) (mjds : List ℚ) : Except SWXErr Unit :=
  match swx_validate_toas_go s mjds (famKeys .swxr1 s) [] with
  | .error e => .error e
  | .ok [] => .ok ()
  | .ok bad => .error (.missingTOAs bad)

/-- The spec's description of the offending segments: the non-frozen segments
(in `SWXR1_` key order) whose half-open MJD interval contains no TOA. -/
def spec_empty_nonfrozen_segments (s : SWXState) (mjds : List ℚ) : List ℕ :=
  (famKeys .swxr1 s).filter fun k => !segFrozen s k && segEmpty s mjds k

/-! ## The 1 MHz minimum-frequency guard on the delay derivatives

Every `d_delay_d_<param>` method of the three components computes
`deriv = self.d_delay_d_dmparam(toas, name)` — a base-class method of
`Dispersion` (`dispersion_model.py`, not part of this source tree) whose
output enters here as the abstract per-TOA array `dmderiv` — and then zeroes
the entries whose barycentric frequency (or topocentric frequency, when the
barycentric computation is unavailable) is below `1.0 * u.MHz`.  Frequencies
are embedded in MHz. -/

/-- `bfreq = self._parent.barycentric_radio_freq(toas)` with the
`except AttributeError: bfreq = toas.table["freq"]` fallback. -/
def chooseFreq (bary : Option (List ℚ)) (topo : List ℚ) : List ℚ :=
  bary.getD topo

/-- `deriv[bfreq < 1.0 * u.MHz] = 0.0` applied to a derivative array. -/
def maskLowFreq (bfreq deriv : List ℚ) : List ℚ :=
  List.zipWith (fun f d => if f < 1 then (0 : ℚ) else d) bfreq deriv

/-- `SolarWindDispersion.d_delay_d_ne_sw(toas)`. -/
def d_delay_d_ne_sw (bary : Option (List ℚ)) (topo dmderiv : List ℚ) : List ℚ :=
  maskLowFreq (chooseFreq bary topo) dmderiv

/-- `SolarWindDispersion.d_delay_d_swp(toas)`. -/
def d_delay_d_swp (bary : Option (List ℚ)) (topo dmderiv : List ℚ) : List ℚ :=
  maskLowFreq (chooseFreq bary topo) dmderiv

/-- `SolarWindDispersionX.d_delay_d_swx(toas, param_name)`. -/
def d_delay_d_swx (bary : Option (List ℚ)) (topo dmderiv : List ℚ) : List ℚ :=
  maskLowFreq (chooseFreq bary topo) dmderiv

/-- `SolarWindDispersionX.d_delay_d_swxp(toas, param_name)`. -/
def d_delay_d_swxp (bary : Option (List ℚ)) (topo dmderiv : List ℚ) : List ℚ :=
  maskLowFreq (chooseFreq bary topo) dmderiv

/-- `SolarWindDispersionScaled.d_delay_d_swdmmax(toas)`. -/
def d_delay_d_swdmmax (bary : Option (List ℚ)) (topo dmderiv : List ℚ) : List ℚ :=
  maskLowFreq (chooseFreq bary topo) dmderiv

/-- `SolarWindDispersionScaled.d_delay_d_swp(toas)` (the `SWPP` derivative). -/
def d_delay_d_swpp (bary : Option (List ℚ)) (topo dmderiv : List ℚ) : List ℚ :=
  maskLowFreq (chooseFreq bary topo) dmderiv

/-! ## Claim theorems: unsupported-regime guards (C3) -/

/-- C3: with `SWM = 1`, `solar_wind_geometry` raises the not-implemented
error exactly when the power-law index `SWP <= 1`, and it raises the
not-implemented error for every `SWM` other than 0 and 1; on the derivative
path `d_solar_wind_geometry_d_swp` with `SWM = 1` and `SWP <= 1` an array of
infinities is returned instead of a finite wrong value; and for `p <= 1` no
variant (SWX per-segment geometry, scaled geometry, fiducial geometry) falls
back to the `p > 1` formula. -/
theorem solar_wind_geometry_p_guard (hyp : ℝ → ℝ → ℝ → ℝ → ℝ) (sg pg : ℝ → ℝ)
    (SWP : ℚ) (toas : List (ℝ × ℝ)) (theta0 : ℝ) :
    (swd_solar_wind_geometry hyp 1 SWP toas = .error .notImplementedP ↔ SWP ≤ 1) ∧
    (∀ swm : ℚ, swm ≠ 0 → swm ≠ 1 →
      swd_solar_wind_geometry hyp swm SWP toas = .error .notImplementedSWM) ∧
    (SWP ≤ 1 → swd_d_solar_wind_geometry_d_swp hyp sg pg 1 SWP toas =
      .ok (List.replicate toas.length .inf)) ∧
    (SWP ≤ 1 → swx_solar_wind_geometry hyp SWP toas = .error .notImplementedP) ∧
    (SWP ≤ 1 → sws_solar_wind_geometry hyp SWP toas = .error .notImplementedP) ∧
    (SWP ≤ 1 → sws_fiducial_solar_wind_geometry hyp SWP theta0 = .error .notImplementedP) := by
  have h10 : (1 : ℚ) ≠ 0 := by norm_num
  refine ⟨?_, ?_, ?_, ?_, ?_, ?_⟩
  · by_cases h : 1 < SWP
    · rw [swd_solar_wind_geometry, if_neg h10, if_pos rfl, if_pos h]
      simp [not_le.mpr h]
    · rw [swd_solar_wind_geometry, if_neg h10, if_pos rfl, if_neg h]
      simp [not_lt.mp h]
  · intro swm h0 h1
    rw [swd_solar_wind_geometry, if_neg h0, if_neg h1]
  · intro h
    rw [swd_d_solar_wind_geometry_d_swp, if_neg h10, if_pos rfl, if_neg (not_lt.mpr h)]
  · intro h
    rw [swx_solar_wind_geometry, if_neg (not_lt.mpr h)]
  · intro h
    rw [sws_solar_wind_geometry, if_neg (not_lt.mpr h)]
  · intro h
    rw [sws_fiducial_solar_wind_geometry, if_neg (not_lt.mpr h)]

/-- Witness for C3 at `SWP = 1/2`, `SWM ∈ {1, 5}`, a one-TOA set. -/
theorem solar_wind_geometry_p_guard_witness :
    swd_solar_wind_geometry (fun _ _ _ _ => 0) 1 (1/2) [] = .error .notImplementedP ∧
    swd_solar_wind_geometry (fun _ _ _ _ => 0) 5 (1/2) [] = .error .notImplementedSWM ∧
    swd_d_solar_wind_geometry_d_swp (fun _ _ _ _ => 0) (fun _ => 0) (fun _ => 0) 1 (1/2)
      [(0, 1)] = .ok [.inf] ∧
    swx_solar_wind_geometry (fun _ _ _ _ => 0) (1/2) [] = .error .notImplementedP ∧
    sws_solar_wind_geometry (fun _ _ _ _ => 0) (1/2) [] = .error .notImplementedP ∧
    sws_fiducial_solar_wind_geometry (fun _ _ _ _ => 0) (1/2) 0 = .error .notImplementedP := by
  obtain ⟨h1, h2, _, h4, h5, h6⟩ :=
    solar_wind_geometry_p_guard (fun _ _ _ _ => 0) (fun _ => 0) (fun _ => 0) (1/2) [] 0
  obtain ⟨_, _, h3, _, _, _⟩ :=
    solar_wind_geometry_p_guard (fun _ _ _ _ => 0) (fun _ => 0) (fun _ => 0) (1/2) [(0, 1)] 0
  refine ⟨h1.mpr (by norm_num), h2 5 (by norm_num) (by norm_num), ?_,
    h4 (by norm_num), h5 (by norm_num), h6 (by norm_num)⟩
  simpa using h3 (by norm_num)

/-! ## Claim theorems: the four-family index invariant (C4) -/

lemma add_swx_range_ok {s s' : SWXState} {a b : Option ℚ} {oi : Option ℕ}
    {v q : ℚ} {fz : Bool} {j : ℕ}
    (h : add_swx_range s a b oi v q fz = .ok (s', j)) :
    boundsCheck a b = none ∧ j = oi.getD (maxSWXIndex s + 1) ∧
      j ∉ famKeySet .swx s ∧
      s' = swx_setup (s ++ swxNewParams j a b v q fz) ∧
      swx_validate s' = .ok () := by
  unfold add_swx_range at h
  cases hbc : boundsCheck a b with
  | some e => rw [hbc] at h; simp at h
  | none =>
    rw [hbc] at h
    dsimp only [] at h
    by_cases hm : oi.getD (maxSWXIndex s + 1) ∈ famKeySet .swx s
    · rw [if_pos hm] at h; simp at h
    · rw [if_neg hm] at h
      cases hv : swx_validate
          (swx_setup (s ++ swxNewParams (oi.getD (maxSWXIndex s + 1)) a b v q fz)) with
      | error e => rw [hv] at h; simp at h
      | ok u =>
        rw [hv] at h
        simp only [Except.ok.injEq, Prod.mk.injEq] at h
        obtain ⟨hs', hj⟩ := h
        subst hs'
        subst hj
        exact ⟨rfl, rfl, hm, rfl, by cases u; exact hv⟩

lemma remove_swx_range_ok {s s' : SWXState} {i : ℕ}
    (h : remove_swx_range s i = .ok s') :
    s' = swx_remove_param (swx_remove_param (swx_remove_param
        (swx_remove_param s .swx i) .swxp i) .swxr1 i) .swxr2 i ∧
      swx_validate s' = .ok () := by
  unfold remove_swx_range at h
  dsimp only [] at h
  cases hv : swx_validate (swx_remove_param (swx_remove_param (swx_remove_param
      (swx_remove_param s .swx i) .swxp i) .swxr1 i) .swxr2 i) with
  | error e => rw [hv] at h; simp at h
  | ok u =>
    rw [hv] at h
    simp only [Except.ok.injEq] at h
    subst h
    exact ⟨rfl, by cases u; exact hv⟩

/-- C4: `validate()` succeeds iff the four co-indexed families have identical
index-key sets; the first failing comparison raises the `ValueError` naming
the mismatched family; and every state reachable by `add_swx_range` /
`remove_swx_range` validates successfully. -/
theorem swx_validate_spec (s : SWXState) :
    (swx_validate s = .ok () ↔
      (famKeySet .swx s = famKeySet .swxp s ∧ famKeySet .swx s = famKeySet .swxr1 s ∧
        famKeySet .swx s = famKeySet .swxr2 s)) ∧
    (famKeySet .swx s ≠ famKeySet .swxp s → swx_validate s = .error .mismatchSWXP) ∧
    (famKeySet .swx s = famKeySet .swxp s → famKeySet .swx s ≠ famKeySet .swxr1 s →
      swx_validate s = .error .mismatchSWXR1) ∧
    (famKeySet .swx s = famKeySet .swxp s → famKeySet .swx s = famKeySet .swxr1 s →
      famKeySet .swx s ≠ famKeySet .swxr2 s → swx_validate s = .error .mismatchSWXR2) ∧
    (SWXReachable s → swx_validate s = .ok ()) := by
  refine ⟨?_, ?_, ?_, ?_, ?_⟩
  · unfold swx_validate
    split_ifs with h1 h2 h3 <;> simp_all
  · intro h1
    unfold swx_validate
    rw [if_pos h1]
  · intro h1 h2
    unfold swx_validate
    rw [if_neg (not_not_intro h1), if_pos h2]
  · intro h1 h2 h3
    unfold swx_validate
    rw [if_neg (not_not_intro h1), if_neg (not_not_intro h2), if_pos h3]
  · intro hr
    cases hr with
    | init => decide
    | add hs h => exact (add_swx_range_ok h).2.2.2.2
    | remove hs h => exact (remove_swx_range_ok h).2

/-- Witness for C4: a deliberately mismatched one-family state raises the
`SWXP_` mismatch error, and the constructor's state validates. -/
theorem swx_validate_spec_witness :
    swx_validate [⟨.swx, 1, 0, none, false⟩] = .error .mismatchSWXP ∧
    swx_validate swxInitState = .ok () :=
  ⟨(swx_validate_spec [⟨.swx, 1, 0, none, false⟩]).2.1 (by decide),
    (swx_validate_spec swxInitState).1.mpr (by decide)⟩

/-! ## Claim theorems: the 1 MHz guard (C9) -/

lemma maskLowFreq_getD (bf dv : List ℚ) (i : ℕ) (h1 : i < bf.length)
    (h2 : i < dv.length) :
    (maskLowFreq bf dv).getD i 0 = if bf.getD i 0 < 1 then 0 else dv.getD i 0 := by
  induction bf generalizing dv i with
  | nil => simp at h1
  | cons f fs ih =>
    cases dv with
    | nil => simp at h2
    | cons d ds =>
      cases i with
      | zero => simp [maskLowFreq]
      | succ i =>
        simp only [maskLowFreq, List.zipWith_cons_cons, List.getD_cons_succ]
        exact ih ds i (by simpa using h1) (by simpa using h2)

/-- C9: each delay-derivative function returns exactly 0 at every TOA whose
observing frequency (barycentric, or the topocentric fallback when the
barycentric array is unavailable) is below the 1 MHz guard, and leaves every
other entry equal to the underlying `d_delay_d_dmparam` value. -/
theorem d_delay_low_freq_guard (bary : Option (List ℚ)) (topo dmderiv : List ℚ)
    (i : ℕ) (h1 : i < (chooseFreq bary topo).length) (h2 : i < dmderiv.length) :
    ((chooseFreq bary topo).getD i 0 < 1 →
      (d_delay_d_ne_sw bary topo dmderiv).getD i 0 = 0 ∧
      (d_delay_d_swp bary topo dmderiv).getD i 0 = 0 ∧
      (d_delay_d_swx bary topo dmderiv).getD i 0 = 0 ∧
      (d_delay_d_swxp bary topo dmderiv).getD i 0 = 0 ∧
      (d_delay_d_swdmmax bary topo dmderiv).getD i 0 = 0 ∧
      (d_delay_d_swpp bary topo dmderiv).getD i 0 = 0) ∧
    (¬ (chooseFreq bary topo).getD i 0 < 1 →
      (d_delay_d_ne_sw bary topo dmderiv).getD i 0 = dmderiv.getD i 0 ∧
      (d_delay_d_swp bary topo dmderiv).getD i 0 = dmderiv.getD i 0 ∧
      (d_delay_d_swx bary topo dmderiv).getD i 0 = dmderiv.getD i 0 ∧
      (d_delay_d_swxp bary topo dmderiv).getD i 0 = dmderiv.getD i 0 ∧
      (d_delay_d_swdmmax bary topo dmderiv).getD i 0 = dmderiv.getD i 0 ∧
      (d_delay_d_swpp bary topo dmderiv).getD i 0 = dmderiv.getD i 0) := by
  have key := maskLowFreq_getD (chooseFreq bary topo) dmderiv i h1 h2
  constructor
  · intro hf
    rw [if_pos hf] at key
    exact ⟨key, key, key, key, key, key⟩
  · intro hf
    rw [if_neg hf] at key
    exact ⟨key, key, key, key, key, key⟩

/-- Witness for C9 on a two-TOA set with barycentric frequencies
`[0.5 MHz, 2 MHz]`. -/
theorem d_delay_low_freq_guard_witness :
    (d_delay_d_ne_sw (some [0, 2]) [3, 3] [7, 8]).getD 0 0 = 0 ∧
    (d_delay_d_ne_sw (some [0, 2]) [3, 3] [7, 8]).getD 1 0 = 8 := by
  have h0 := d_delay_low_freq_guard (some [0, 2]) [3, 3] [7, 8] 0 (by decide) (by decide)
  have h1 := d_delay_low_freq_guard (some [0, 2]) [3, 3] [7, 8] 1 (by decide) (by decide)
  refine ⟨(h0.1 (by decide)).1, ?_⟩
  have h := (h1.2 (by decide)).1
  rw [h]
  decide

/-! ## Claim theorems: the scaled amplitude relation (C10) -/

/-- C10: when the power-law index exceeds 1 and the fiducial geometry is a
finite nonzero value `F`, `get_ne_sw()` returns `SWDMMAX / F`, the product
`get_ne_sw() * fiducial_solar_wind_geometry()` is exactly the configured
`SWDMMAX`, and `solar_wind_dm` evaluated at the fiducial elongation
(`theta = theta0`, `r = 1 AU`) reproduces `SWDMMAX`. -/
theorem sws_ne_sw_times_fiducial (hyp : ℝ → ℝ → ℝ → ℝ → ℝ) (SWDMMAX SWPP : ℚ)
    (theta0 : ℝ) (F : ℝ)
    (hfid : sws_fiducial_solar_wind_geometry hyp SWPP theta0 = .ok F) (hF : F ≠ 0) :
    sws_get_ne_sw hyp SWDMMAX SWPP theta0 = .ok ((SWDMMAX : ℝ) / F) ∧
    (SWDMMAX : ℝ) / F * F = (SWDMMAX : ℝ) ∧
    sws_solar_wind_dm hyp SWDMMAX SWPP theta0 [(theta0, 1)] = .ok [(SWDMMAX : ℝ)] := by
  have hp : 1 < SWPP := by
    by_contra hp
    rw [sws_fiducial_solar_wind_geometry, if_neg hp] at hfid
    simp at hfid
  have hFval :
      sw_geometry_core hyp (SWPP : ℝ) (1 * Real.sin theta0) (1 * Real.cos theta0) = F := by
    rw [sws_fiducial_solar_wind_geometry, if_pos hp] at hfid
    simpa using hfid
  refine ⟨?_, ?_, ?_⟩
  · simp [sws_get_ne_sw, hfid]
  · field_simp
  · have hgeo : sws_solar_wind_geometry hyp SWPP [(theta0, 1)] = .ok [F] := by
      rw [sws_solar_wind_geometry, if_pos hp]
      simp only [List.map_cons, List.map_nil]
      rw [hFval]
    unfold sws_solar_wind_dm
    rw [hgeo, hfid]
    show Except.ok (List.map (fun g => ((SWDMMAX : ℝ)) * (g / F)) [F]) = _
    simp [div_self hF]

/-- Witness for C10 at `SWPP = 2`, `SWDMMAX = 7`, fiducial ecliptic latitude
`pi/2` and the constant hypergeometric benchmark `hyp = 1`, for which the
fiducial geometry is the nonzero value `z_p_AU * au_in_pc`. -/
theorem sws_ne_sw_times_fiducial_witness :
    sws_fiducial_solar_wind_geometry (fun _ _ _ _ => 1) 2 (Real.pi / 2) =
      .ok (z_p_AU * au_in_pc) ∧
    z_p_AU * au_in_pc ≠ 0 ∧
    sws_get_ne_sw (fun _ _ _ _ => 1) 7 2 (Real.pi / 2) =
      .ok ((7 : ℝ) / (z_p_AU * au_in_pc)) ∧
    (7 : ℝ) / (z_p_AU * au_in_pc) * (z_p_AU * au_in_pc) = 7 := by
  have hfid : sws_fiducial_solar_wind_geometry (fun _ _ _ _ => 1) 2 (Real.pi / 2) =
      .ok (z_p_AU * au_in_pc) := by
    rw [sws_fiducial_solar_wind_geometry, if_pos (by norm_num)]
    rw [sw_geometry_core, _dm_p_int, _dm_p_int]
    simp [Real.sin_pi_div_two, Real.cos_pi_div_two, Real.one_rpow]
  have hne : z_p_AU * au_in_pc ≠ 0 := by
    rw [z_p_AU, au_in_pc]
    norm_num
  obtain ⟨h1, h2, _⟩ := sws_ne_sw_times_fiducial (fun _ _ _ _ => 1) 7 2 (Real.pi / 2)
    (z_p_AU * au_in_pc) hfid hne
  refine ⟨hfid, hne, ?_, ?_⟩
  · simpa using h1
  · simpa using h2

/-! ## Structural lemmas on the SWX parameter lists -/

lemma mem_famKeys {f : SWXFam} {s : SWXState} {j : ℕ} :
    j ∈ famKeys f s ↔ ∃ e ∈ s, e.fam = f ∧ e.idx = j := by
  rw [famKeys, List.mem_filterMap]
  constructor
  · rintro ⟨e, he, hg⟩
    by_cases hf : e.fam = f
    · rw [if_pos hf] at hg
      exact ⟨e, he, hf, Option.some.inj hg⟩
    · rw [if_neg hf] at hg
      cases hg
  · rintro ⟨e, he, hf, hj⟩
    exact ⟨e, he, by rw [if_pos hf, hj]⟩

lemma famKeys_append (f : SWXFam) (s t : SWXState) :
    famKeys f (s ++ t) = famKeys f s ++ famKeys f t :=
  List.filterMap_append s t _

lemma famKeys_swxNewParams (f : SWXFam) (i : ℕ) (a b : Option ℚ) (v q : ℚ)
    (fz : Bool) : famKeys f (swxNewParams i a b v q fz) = [i] := by
  cases f <;> rfl

lemma famKeys_setup_swx (s : SWXState) :
    famKeys .swx (swx_setup s) = famKeys .swx s := by
  rw [swx_setup, famKeys_append]
  have h : famKeys .swx (((famKeys .swx s).filter fun i => i ∉ famKeys .swxp s).map
      fun i => (⟨.swxp, i, 2, none, true⟩ : SWXParam)) = [] := by
    rw [famKeys, List.filterMap_map]
    exact List.filterMap_eq_nil_iff.mpr fun a _ => rfl
  rw [h, List.append_nil]

lemma setup_of_covered (s : SWXState)
    (hsub : ∀ j ∈ famKeys .swx s, j ∈ famKeys .swxp s) : swx_setup s = s := by
  rw [swx_setup]
  have h : ((famKeys .swx s).filter fun i => i ∉ famKeys .swxp s) = [] :=
    List.filter_eq_nil_iff.mpr fun a ha => by simpa using hsub a ha
  rw [h]
  simp

lemma remove_param_append (s t : SWXState) (f : SWXFam) (i : ℕ) :
    swx_remove_param (s ++ t) f i = swx_remove_param s f i ++ swx_remove_param t f i :=
  List.filter_append _ _

lemma remove_param_of_not_mem (s : SWXState) (f : SWXFam) (i : ℕ)
    (h : i ∉ famKeys f s) : swx_remove_param s f i = s := by
  rw [swx_remove_param]
  apply List.filter_eq_self.mpr
  intro e he
  simp only [decide_eq_true_eq]
  rintro ⟨hf, hi⟩
  exact h (mem_famKeys.mpr ⟨e, he, hf, hi⟩)

lemma remove_param_swxNewParams_chain (i : ℕ) (a b : Option ℚ) (v q : ℚ)
    (fz : Bool) :
    swx_remove_param (swx_remove_param (swx_remove_param (swx_remove_param
      (swxNewParams i a b v q fz) .swx i) .swxp i) .swxr1 i) .swxr2 i = [] := by
  simp [swxNewParams, swx_remove_param, List.filter]

lemma remove4_append (s t : SWXState) (i : ℕ)
    (h1 : i ∉ famKeys .swx s) (h2 : i ∉ famKeys .swxp s)
    (h3 : i ∉ famKeys .swxr1 s) (h4 : i ∉ famKeys .swxr2 s) :
    swx_remove_param (swx_remove_param (swx_remove_param (swx_remove_param
        (s ++ t) .swx i) .swxp i) .swxr1 i) .swxr2 i =
      s ++ swx_remove_param (swx_remove_param (swx_remove_param (swx_remove_param
        t .swx i) .swxp i) .swxr1 i) .swxr2 i := by
  rw [remove_param_append, remove_param_of_not_mem s _ _ h1,
    remove_param_append, remove_param_of_not_mem s _ _ h2,
    remove_param_append, remove_param_of_not_mem s _ _ h3,
    remove_param_append, remove_param_of_not_mem s _ _ h4]

/-! ## Claim theorems: add/remove round trip (C5) -/

/-- C5: on a state that validates, `add_swx_range` with a fresh index `i`
followed immediately by `remove_swx_range(i)` returns the parameter set
exactly to its prior state — same remaining indices and same parameter values
for every other segment. -/
theorem add_remove_roundtrip (s : SWXState) (i : ℕ) (a b : Option ℚ) (v q : ℚ)
    (fz : Bool) (s' : SWXState)
    (hval : swx_validate s = .ok ())
    (hadd : add_swx_range s a b (some i) v q fz = .ok (s', i)) :
    remove_swx_range s' i = .ok s := by
  obtain ⟨hbc, hjeq, hmem, hs'eq, hval'⟩ := add_swx_range_ok hadd
  obtain ⟨heq1, heq2, heq3⟩ := (swx_validate_spec s).1.mp hval
  have hmem1 : i ∉ famKeys .swx s := fun hc => hmem (List.mem_toFinset.mpr hc)
  have hmem2 : i ∉ famKeys .swxp s := by
    intro hc
    apply hmem
    rw [heq1]
    exact List.mem_toFinset.mpr hc
  have hmem3 : i ∉ famKeys .swxr1 s := by
    intro hc
    apply hmem
    rw [heq2]
    exact List.mem_toFinset.mpr hc
  have hmem4 : i ∉ famKeys .swxr2 s := by
    intro hc
    apply hmem
    rw [heq3]
    exact List.mem_toFinset.mpr hc
  have hsetup : swx_setup (s ++ swxNewParams i a b v q fz) =
      s ++ swxNewParams i a b v q fz := by
    apply setup_of_covered
    intro j hj
    rw [famKeys_append] at hj ⊢
    rcases List.mem_append.mp hj with hj | hj
    · apply List.mem_append.mpr
      left
      have hjf : j ∈ famKeySet .swx s := List.mem_toFinset.mpr hj
      rw [heq1] at hjf
      exact List.mem_toFinset.mp hjf
    · apply List.mem_append.mpr
      right
      rw [famKeys_swxNewParams] at hj ⊢
      exact hj
  rw [hsetup] at hs'eq
  subst hs'eq
  unfold remove_swx_range
  dsimp only []
  rw [remove4_append s _ i hmem1 hmem2 hmem3 hmem4,
    remove_param_swxNewParams_chain, List.append_nil, hval]

/-- Witness for C5: on the constructor's state, add index 2 and remove it. -/
theorem add_remove_roundtrip_witness :
    remove_swx_range (swxInitState ++ swxNewParams 2 none none 0 2 true) 2 =
      .ok swxInitState :=
  add_remove_roundtrip swxInitState 2 none none 0 2 true
    (swxInitState ++ swxNewParams 2 none none 0 2 true) (by decide) (by decide)

/-! ## Claim theorems: index assignment and rejections in `add_swx_range` (C8) -/

/-- C8: `add_swx_range` assigns `max index + 1` when no index is given (and
returns exactly that index on success); specifying an already registered
index is rejected with the reused-index error (when the bounds checks pass,
which are run first); `mjd_end < mjd_start` is rejected; giving exactly one
of the two bounds is rejected.  Each rejection produces an error and no
modified state, so no parameter is created. -/
theorem add_swx_range_checks (s : SWXState) (a b : Option ℚ) (oi : Option ℕ)
    (i : ℕ) (v q x y : ℚ) (fz : Bool) :
    (add_swx_range s a b none v q fz =
      add_swx_range s a b (some (maxSWXIndex s + 1)) v q fz) ∧
    (∀ s' j, add_swx_range s a b oi v q fz = .ok (s', j) →
      j = oi.getD (maxSWXIndex s + 1)) ∧
    (boundsCheck a b = none → i ∈ famKeySet .swx s →
      add_swx_range s a b (some i) v q fz = .error .reusedIndex) ∧
    (y < x → add_swx_range s (some x) (some y) oi v q fz = .error .invertedBounds) ∧
    (add_swx_range s (some x) none oi v q fz = .error .partialBounds) ∧
    (add_swx_range s none (some y) oi v q fz = .error .partialBounds) := by
  refine ⟨rfl, ?_, ?_, ?_, rfl, rfl⟩
  · intro s' j h
    exact (add_swx_range_ok h).2.1
  · intro hbc hi
    simp only [add_swx_range, hbc, Option.getD_some]
    simp [hi]
  · intro hxy
    have hb : boundsCheck (some x) (some y) = some .invertedBounds := by
      simp [boundsCheck, hxy]
    simp only [add_swx_range, hb]

/-- Witness for C8 on the constructor's state (registered index set `{1}`,
maximum index 1). -/
theorem add_swx_range_checks_witness :
    add_swx_range swxInitState none none none 0 2 true =
      add_swx_range swxInitState none none (some 2) 0 2 true ∧
    add_swx_range swxInitState none none (some 1) 0 2 true = .error .reusedIndex ∧
    add_swx_range swxInitState (some 20) (some 10) none 0 2 true =
      .error .invertedBounds ∧
    add_swx_range swxInitState (some 20) none none 0 2 true = .error .partialBounds := by
  obtain ⟨h1, _, h3, h4, h5, _⟩ :=
    add_swx_range_checks swxInitState none none none 1 0 2 20 10 true
  have hmax : maxSWXIndex swxInitState + 1 = 2 := by decide
  rw [hmax] at h1
  exact ⟨h1, h3 rfl (by decide), h4 (by norm_num), h5⟩

/-! ## Claim theorems: `get_indices` (C7) -/

lemma swx_reachable_nodup {s : SWXState} (hr : SWXReachable s) :
    (famKeys .swx s).Nodup := by
  induction hr with
  | init => decide
  | add hs h ih =>
      obtain ⟨_, _, hjmem, hs', _⟩ := add_swx_range_ok h
      subst hs'
      rw [famKeys_setup_swx, famKeys_append, famKeys_swxNewParams]
      rw [List.nodup_append]
      refine ⟨ih, List.nodup_singleton _, ?_⟩
      intro x hx hx'
      rw [List.mem_singleton] at hx'
      subst hx'
      exact hjmem (List.mem_toFinset.mpr hx)
  | remove hs h ih =>
      obtain ⟨hs', _⟩ := remove_swx_range_ok h
      subst hs'
      refine List.Nodup.sublist ?_ ih
      refine List.Sublist.trans (List.Sublist.filterMap _ (List.filter_sublist _)) ?_
      refine List.Sublist.trans (List.Sublist.filterMap _ (List.filter_sublist _)) ?_
      refine List.Sublist.trans (List.Sublist.filterMap _ (List.filter_sublist _)) ?_
      exact List.Sublist.filterMap _ (List.filter_sublist _)

/-- C7 (amended): on every state reachable by `add_swx_range` /
`remove_swx_range`, `get_indices()` returns the indices of all `SWX_`
parameters with no duplicates, equal as a set to the registered segment
indices — but in parameter (insertion) order, not sorted ascending. -/
theorem get_indices_spec (s : SWXState) (h : SWXReachable s) :
    (get_indices s).Nodup ∧ (get_indices s).toFinset = famKeySet .swx s :=
  ⟨swx_reachable_nodup h, rfl⟩

/-- Witness for C7 at the constructor's state. -/
theorem get_indices_spec_witness :
    (get_indices swxInitState).Nodup ∧
      (get_indices swxInitState).toFinset = famKeySet .swx swxInitState :=
  get_indices_spec swxInitState SWXReachable.init

/-- The state reached from the constructor's state by adding index 5 and then
index 3 (both legal `add_swx_range` calls). -/
def swxStateC : SWXState :=
  swxInitState ++ swxNewParams 5 none none 0 2 true ++ swxNewParams 3 none none 0 2 true

/-- C7 counterexample: after adding indices 5 and then 3 to the constructor's
state, `get_indices()` returns `[1, 5, 3]`, which is not sorted ascending. -/
theorem get_indices_not_sorted :
    add_swx_range swxInitState none none (some 5) 0 2 true =
      .ok (swxInitState ++ swxNewParams 5 none none 0 2 true, 5) ∧
    add_swx_range (swxInitState ++ swxNewParams 5 none none 0 2 true) none none
      (some 3) 0 2 true = .ok (swxStateC, 3) ∧
    get_indices swxStateC = [1, 5, 3] ∧
    ¬ List.Sorted (· ≤ ·) (get_indices swxStateC) := by
  refine ⟨by decide, by decide, by decide, ?_⟩
  intro hs
  rw [show get_indices swxStateC = [1, 5, 3] from by decide] at hs
  obtain ⟨-, h2⟩ := List.sorted_cons.mp hs
  obtain ⟨h3, -⟩ := List.sorted_cons.mp h2
  exact absurd (h3 3 (by simp)) (by norm_num)

/-! ## Claim theorems: missing-TOA validation (C6) -/

lemma swx_validate_toas_go_spec (s : SWXState) (mjds : List ℚ) :
    ∀ ks acc, (∀ k ∈ ks, swxToasReadyAt s k = true) →
      swx_validate_toas_go s mjds ks acc =
        .ok (acc ++ ks.filter fun k => !segFrozen s k && segEmpty s mjds k) := by
  intro ks
  induction ks with
  | nil =>
      intro acc _
      simp [swx_validate_toas_go]
  | cons k ks ih =>
      intro acc hready
      have hk := hready k (by simp)
      have hks : ∀ x ∈ ks, swxToasReadyAt s x = true := fun x hx =>
        hready x (by simp [hx])
      rw [swx_validate_toas_go]
      unfold swxToasReadyAt at hk
      cases hfind : findParam s .swx k with
      | none =>
          rw [hfind] at hk
          simp at hk
      | some pswx =>
          rw [hfind] at hk
          dsimp only [] at hk ⊢
          have hsf : segFrozen s k = pswx.frozen := by rw [segFrozen, hfind]
          by_cases hfz : pswx.frozen = true
          · rw [if_pos hfz, ih acc hks, List.filter_cons,
              show (!segFrozen s k && segEmpty s mjds k) = false by
                rw [hsf, hfz]; rfl]
            simp
          · have hfz' : pswx.frozen = false := by
              revert hfz; cases pswx.frozen <;> simp
            rw [if_neg hfz]
            rw [hfz'] at hk
            simp only [Bool.false_or, Bool.and_eq_true, Option.isSome_iff_exists] at hk
            obtain ⟨⟨mb, hmb⟩, ⟨me, hme⟩⟩ := hk
            rw [hmb, hme]
            dsimp only []
            have hse : segEmpty s mjds k =
                decide ((mjds.countP fun m => decide (mb ≤ m ∧ m < me)) = 0) := by
              rw [segEmpty, hmb, hme]
            by_cases hcount : (mjds.countP fun m => decide (mb ≤ m ∧ m < me)) = 0
            · rw [if_pos hcount, ih (acc ++ [k]) hks, List.filter_cons,
                show (!segFrozen s k && segEmpty s mjds k) = true by
                  rw [hsf, hfz', hse, decide_eq_true hcount]; rfl]
              simp
            · rw [if_neg hcount, ih acc hks, List.filter_cons,
                show (!segFrozen s k && segEmpty s mjds k) = false by
                  rw [hsf, hfz', hse, decide_eq_false hcount]; rfl]
              simp

/-- C6: when the per-segment reads succeed, `validate_toas` raises
`MissingTOAs` exactly when some non-frozen segment contains zero TOAs under
the half-open membership `start <= mjd < end`, and the raised error carries
the `SWX_` parameters of ALL empty non-frozen segments at once; frozen
segments are never reported. -/
theorem swx_validate_toas_spec (s : SWXState) (mjds : List ℚ)
    (hready : ∀ k ∈ famKeys .swxr1 s, swxToasReadyAt s k = true) :
    (swx_validate_toas s mjds = .ok () ↔ spec_empty_nonfrozen_segments s mjds = []) ∧
    (spec_empty_nonfrozen_segments s mjds ≠ [] →
      swx_validate_toas s mjds =
        .error (.missingTOAs (spec_empty_nonfrozen_segments s mjds))) := by
  have hgo := swx_validate_toas_go_spec s mjds (famKeys .swxr1 s) [] hready
  rw [List.nil_append] at hgo
  rw [swx_validate_toas, hgo]
  rw [show ((famKeys .swxr1 s).filter fun k => !segFrozen s k && segEmpty s mjds k) =
    spec_empty_nonfrozen_segments s mjds from rfl]
  cases hfil : spec_empty_nonfrozen_segments s mjds with
  | nil => simp
  | cons x xs => simp

/-- The two-segment state used as the C6 witness: segment 1 is non-frozen
with range `[10, 20)`, segment 2 is frozen with range `[30, 40)`. -/
def swxStateW : SWXState :=
  [⟨.swx, 1, 0, none, false⟩, ⟨.swxp, 1, 2, none, false⟩,
   ⟨.swxr1, 1, 0, some 10, true⟩, ⟨.swxr2, 1, 0, some 20, true⟩,
   ⟨.swx, 2, 0, none, true⟩, ⟨.swxp, 2, 2, none, true⟩,
   ⟨.swxr1, 2, 0, some 30, true⟩, ⟨.swxr2, 2, 0, some 40, true⟩]

/-- Witness for C6: with the single TOA at MJD 25, segment 1 (non-frozen) is
empty and is reported while the equally empty frozen segment 2 is not; with
the single TOA at MJD 15, validation passes. -/
theorem swx_validate_toas_spec_witness :
    swx_validate_toas swxStateW [25] = .error (.missingTOAs [1]) ∧
    swx_validate_toas swxStateW [15] = .ok () := by
  obtain ⟨-, herr⟩ := swx_validate_toas_spec swxStateW [25] (by decide)
  obtain ⟨hiff, -⟩ := swx_validate_toas_spec swxStateW [15] (by decide)
  refine ⟨?_, hiff.mpr (by decide)⟩
  have h := herr (by decide)
  rw [show spec_empty_nonfrozen_segments swxStateW [25] = [1] from by decide] at h
  exact h
